import Mathlib

/-!
Verification of the normalization and parsing layer of the
covid_treatment_sickbed repository (Rust).  Strings are modelled as
`List Char` (Rust `&str` iterated by `chars()`, i.e. Unicode scalar
values).  Fallible Rust code returning `Option`/`Result` is modelled by
`Option`/`Except`; a Rust panic (`unwrap`/`expect` failure) is modelled
by an error or `none` layer as documented at each definition.
-/

deriving instance DecidableEq for Except

/-- Model of Rust `char::from_u32`: `some` exactly on valid Unicode scalar
values (not a surrogate, at most 0x10FFFF). -/
def char_from_u32 (n : Nat) : Option Char :=
  if n < 0xd800 ∨ (0xdfff < n ∧ n < 0x110000) then
    some (Char.ofNat n)
  else none

/-- Per-character body of `util::to_half_digits` (src/util/src/lib.rs):
fullwidth digits U+FF10–U+FF19 are translated to ASCII `0`–`9`, ASCII
digits are kept, anything else yields `none`. -/
def to_half_digit_char (c : Char) : Option Char :=
  if 0xFF10 ≤ c.toNat ∧ c.toNat ≤ 0xFF19 then
    char_from_u32 (c.toNat - 0xFF10 + 0x30)
  else if 0x30 ≤ c.toNat ∧ c.toNat ≤ 0x39 then
    some c
  else none

/-- `util::to_half_digits` (src/util/src/lib.rs): maps each character via
`to_half_digit_char` and collects, failing as soon as one character is
not a digit in either system. -/
def to_half_digits : List Char → Option (List Char)
  | [] => some []
  | c :: cs =>
    match to_half_digit_char c, to_half_digits cs with
    | some d, some ds => some (d :: ds)
    | _, _ => none

/-- `PhaseMode` (src/data-formatter/src/main.rs). -/
inductive PhaseMode where
  | Normal
  | Emergency
deriving DecidableEq, Repr

/-- `Phase` (src/data-formatter/src/main.rs); `current` and `maximum` are
`u8` in the source, modelled as `Nat` (the parser below enforces the
0–255 bound exactly where the source does). -/
structure Phase where
  current : Nat
  maximum : Nat
  mode : PhaseMode
deriving DecidableEq, Repr

/-- Error kinds of Rust `std::num::ParseIntError` reachable here. -/
inductive ParseIntErrorKind where
  | empty
  | invalidDigit
  | posOverflow
deriving DecidableEq, Repr

/-- `MyError` (src/data-formatter/src/main.rs). -/
inductive MyError where
  | ParseRomanError (c : Char)
  | ParseIntError (k : ParseIntErrorKind)
deriving DecidableEq, Repr

/-- ASCII digit test used when modelling Rust integer parsing. -/
def isAsciiDigit (c : Char) : Bool :=
  0x30 ≤ c.toNat && c.toNat ≤ 0x39

/-- Numeric value of an ASCII digit list, most significant first. -/
def digitsToNat (l : List Char) : Nat :=
  l.foldl (fun a c => a * 10 + (c.toNat - 0x30)) 0

/-- Model of Rust `str::parse` for an unsigned integer type with maximal
value `bound` (`u8::from_str` with `bound = 255`, `u32::from_str` with
`bound = 4294967295`): an optional leading `+`, then one or more ASCII
digits, value at most `bound`.  The empty string is the only input
reported as `empty`. -/
def parse_uint (bound : Nat) (l : List Char) : Except ParseIntErrorKind Nat :=
  match l with
  | [] => .error .empty
  | _ =>
    let digits := match l with
      | '+' :: r => r
      | _ => l
    if digits = [] then .error .invalidDigit
    else if digits.all isAsciiDigit then
      if digitsToNat digits ≤ bound then .ok (digitsToNat digits)
      else .error .posOverflow
    else .error .invalidDigit

/-- Characters with the Unicode `White_Space` property, as recognised by
Rust `char::is_whitespace` (used by `str::trim`). -/
def isRustWhitespace (c : Char) : Bool :=
  let n := c.toNat
  (0x09 ≤ n && n ≤ 0x0D) || n = 0x20 || n = 0x85 || n = 0xA0 ||
  n = 0x1680 || (0x2000 ≤ n && n ≤ 0x200A) || n = 0x2028 || n = 0x2029 ||
  n = 0x202F || n = 0x205F || n = 0x3000

/-- Model of Rust `str::trim`: strip leading and trailing whitespace. -/
def trimChars (l : List Char) : List Char :=
  ((l.dropWhile isRustWhitespace).reverse.dropWhile isRustWhitespace).reverse

/-- First two items of Rust `s.split(sep)`: the first segment always
exists; the second exists exactly when `sep` occurs in the string (it is
the run between the first separator and the next one or the end). -/
def splitTwo (sep : Char) : List Char → List Char × Option (List Char)
  | [] => ([], none)
  | c :: cs =>
    if c = sep then ([], some (cs.takeWhile (fun d => d ≠ sep)))
    else
      let r := splitTwo sep cs
      (c :: r.1, r.2)

/-- `parse_roman_numerals` scan loop (src/data-formatter/src/main.rs,
lines 161–185).  `n` is the `u8` accumulator; `n += k` is modelled with
wraparound at 256 (release-mode Rust semantics).  On `I`/U+2160 the next
character is peeked: `V` or U+3264 is consumed for 4, `X` or U+2169 is
consumed for 9 (note the source really compares against U+3264, CIRCLED
HANGUL MIEUM, not U+2164).  `V` contributes 5, U+2161–U+2168 contribute
`codepoint - 0x2160 + 1`, anything else is an error naming that
character. -/
def parse_roman_numerals_aux : List Char → Nat → Except MyError Nat
  | [], n => .ok n
  | c :: cs, n =>
    if c = 'I' ∨ c.toNat = 0x2160 then
      match cs with
      | d :: cs2 =>
        if d = 'V' ∨ d.toNat = 0x3264 then
          parse_roman_numerals_aux cs2 ((n + 4) % 256)
        else if d = 'X' ∨ d.toNat = 0x2169 then
          parse_roman_numerals_aux cs2 ((n + 9) % 256)
        else
          parse_roman_numerals_aux (d :: cs2) ((n + 1) % 256)
      | [] => parse_roman_numerals_aux [] ((n + 1) % 256)
    else if c = 'V' then
      parse_roman_numerals_aux cs ((n + 5) % 256)
    else if 0x2161 ≤ c.toNat ∧ c.toNat ≤ 0x2168 then
      parse_roman_numerals_aux cs ((n + (c.toNat - 0x2160 + 1)) % 256)
    else .error (.ParseRomanError c)

/-- `parse_roman_numerals` (src/data-formatter/src/main.rs). -/
def parse_roman_numerals (s : List Char) : Except MyError Nat :=
  parse_roman_numerals_aux s 0

/-- The full-width solidus U+FF0F used as phase separator. -/
def fullwidthSolidus : Char := '／'

/-- `parse_phase` (src/data-formatter/src/main.rs, lines 132–150) over a
cell string.  `none` models a panic: the `unwrap` on the second item of
the split (no separator in the input) and the
`util::to_half_digits(m).unwrap()` in the digit branch.  Otherwise
`some` carries the `Result<Phase, MyError>` of the source.  Evaluation
follows source order: in the digit branch `current` is parsed before
`maximum` is normalized. -/
def parse_phase (s : List Char) : Option (Except MyError Phase) :=
  let sp := splitTwo fullwidthSolidus s
  match sp.2 with
  | none => none
  | some mRaw =>
    let c := trimChars sp.1
    let m := trimChars mRaw
    match to_half_digits c with
    | some c2 =>
      match parse_uint 255 c2 with
      | .error e => some (.error (.ParseIntError e))
      | .ok cur =>
        match to_half_digits m with
        | none => none
        | some m2 =>
          match parse_uint 255 m2 with
          | .error e => some (.error (.ParseIntError e))
          | .ok mx => some (.ok ⟨cur, mx, PhaseMode.Normal⟩)
    | none =>
      match parse_roman_numerals c with
      | .error e => some (.error e)
      | .ok cur =>
        match parse_roman_numerals m with
        | .error e => some (.error e)
        | .ok mx => some (.ok ⟨cur, mx, PhaseMode.Emergency⟩)

/-- Cell values handed over by the calamine spreadsheet library
(`calamine::DataType`).  `f64` payloads are modelled as rationals (every
finite double is a rational; no claim below depends on non-finite
values).  The `CellErrorType` payload of `Error` is dropped: no code in
this repository inspects it. -/
inductive DataType where
  | Int (i : Int)
  | Float (f : Rat)
  | String (s : List Char)
  | Bool (b : Bool)
  | DateTime (f : Rat)
  | Error
  | Empty
deriving DecidableEq, Repr

/-- A worksheet as exposed to `collect_records`: a partial grid,
`(row, column) → cell value`, `none` where the grid holds no cell
(calamine `Range::get_value` out of range). -/
def CellGrid : Type := Nat → Nat → Option DataType

/-- calamine `Range::get_value`. -/
def get_value (g : CellGrid) (p : Nat × Nat) : Option DataType :=
  g p.1 p.2

/-- Rust `i as u32` for `i : i64`: the low 32 bits of the two's
complement value. -/
def intAsU32 (i : Int) : Nat :=
  (i % 4294967296).toNat

/-- Rust `f as u32` for `f : f64`: truncate toward zero and saturate to
`[0, u32::MAX]` (the NaN-to-0 case is not representable in the rational
model). -/
def floatAsU32 (q : Rat) : Nat :=
  if q ≤ 0 then 0 else min (q.num.toNat / q.den) 4294967295

/-- `get_number` (src/data-formatter/src/main.rs, lines 124–130): a cell
that is absent, and a cell of any type other than `Int`/`Float`, both
yield `none`. -/
def get_number (g : CellGrid) (row column : Nat) : Option Nat :=
  match get_value g (row, column) with
  | none => none
  | some (DataType.Int i) => some (intAsU32 i)
  | some (DataType.Float f) => some (floatAsU32 f)
  | some _ => none

/-- `Prefecture` (src/data-formatter/src/main.rs). -/
structure Prefecture where
  code : List Char
  name : List Char
deriving DecidableEq, Repr

/-- `PatientCount` (src/data-formatter/src/main.rs). -/
structure PatientCount where
  total : Nat
  dedicated : Nat
  extra : Nat
deriving DecidableEq, Repr

/-- `ResourceCount` (src/data-formatter/src/main.rs). -/
structure ResourceCount where
  available_or_assigned : Nat
  guaranteed : Nat
  extra_guaranteed : Nat
deriving DecidableEq, Repr

/-- `Record` (src/data-formatter/src/main.rs). -/
structure Record where
  prefecture : Prefecture
  phase : Phase
  inpatient_count : PatientCount
  dedicated_bed_count : ResourceCount
deriving DecidableEq, Repr

/-- Display of a calamine `DataType` (`to_string()` in `read_record`).
`Int` and `Bool` follow Rust `Display`; the `Float`/`DateTime`/`Error`
renderings are modelled loosely (no claim below reads a prefecture or
phase cell of those types). -/
def dataTypeToString : DataType → List Char
  | DataType.String s => s
  | DataType.Int i => (toString i).data
  | DataType.Float q => (toString q).data
  | DataType.DateTime q => (toString q).data
  | DataType.Bool b => if b then "true".data else "false".data
  | DataType.Error => "#ERROR".data
  | DataType.Empty => []

def START_ROW : Nat := 8
def END_ROW : Nat := 54
def PREFECTURE_INFO : Nat := 0
def PHASE_INFO : Nat := 5
def INPATIENT_TOTAL : Nat := 2
def INPATIENT_DEDICATED : Nat := 3
def INPATIENT_EXTRA : Nat := 4
def AVAILABLE_OR_ASSIGNED : Nat := 6
def GUARANTEED : Nat := 7
def EXTRA_GUARANTEED : Nat := 8

/-- An `expect` message of `read_record`: prefix, decimal row index,
`" th row."`. -/
def rowMsg (pre : String) (row : Nat) : List Char :=
  pre.data ++ (Nat.repr row).data ++ " th row.".data

/-- Modelled panic message of `Option::unwrap` on `None`. -/
def unwrapNoneMsg : List Char :=
  "called Option::unwrap() on a None value".data

/-- Modelled panic message of `Result::unwrap` on `Err` (the dynamic
payload text is dropped). -/
def unwrapErrMsg : List Char :=
  "called Result::unwrap() on an Err value".data

/-- `read_record` (src/data-formatter/src/main.rs, lines 71–122).  The
source panics on every failure; the model returns `Except` with the
panic message, in source evaluation order: prefecture cell (`expect` on
a missing cell, `unwrap` on a one-part split), phase cell (`expect`,
then `unwrap` of `parse_phase`), then the six numeric cells via
`get_number`, each with its own `expect` message carrying the row. -/
def read_record (g : CellGrid) (row : Nat) : Except (List Char) Record :=
  match get_value g (row, PREFECTURE_INFO) with
  | none => Except.error (rowMsg "Out of range of prefecture in " row)
  | some v =>
    match (dataTypeToString v).splitOn ' ' with
    | code :: name :: _ =>
      let prefecture : Prefecture := ⟨trimChars code, trimChars name⟩
      match get_value g (row, PHASE_INFO) with
      | none => Except.error (rowMsg "Out of range of phase info in " row)
      | some pv =>
        match parse_phase (dataTypeToString pv) with
        | none => Except.error unwrapNoneMsg
        | some (Except.error _) => Except.error unwrapErrMsg
        | some (Except.ok phase) =>
          match get_number g row INPATIENT_TOTAL with
          | none => Except.error
              (rowMsg "Out of range or non-integer value of inpatient in " row)
          | some total =>
            match get_number g row INPATIENT_DEDICATED with
            | none => Except.error
                (rowMsg "Out of range or non-integer value of dedicated in " row)
            | some dedicated =>
              match get_number g row INPATIENT_EXTRA with
              | none => Except.error
                  (rowMsg "Out of range or non-integer value of extra in " row)
              | some extra =>
                match get_number g row AVAILABLE_OR_ASSIGNED with
                | none => Except.error
                    (rowMsg "Out of range or non-integer value of available bed in " row)
                | some available_or_assigned =>
                  match get_number g row GUARANTEED with
                  | none => Except.error
                      (rowMsg "Out of range or non-integer value of guaranteed bed in " row)
                  | some guaranteed =>
                    match get_number g row EXTRA_GUARANTEED with
                    | none => Except.error
                        (rowMsg "Out of range or non-integer value of extra guaranteed bed in " row)
                    | some extra_guaranteed =>
                      Except.ok
                        ⟨prefecture, phase,
                         ⟨total, dedicated, extra⟩,
                         ⟨available_or_assigned, guaranteed, extra_guaranteed⟩⟩
    | _ => Except.error unwrapNoneMsg

/-- The row indices of a Rust `start..=end` range iterated in order:
`count` consecutive naturals from `start`. -/
def rowList : Nat → Nat → List Nat
  | 0, _ => []
  | n + 1, s => s :: rowList n (s + 1)

/-- `read_record` applied to each row in order; the first panic aborts
the whole pass (a Rust panic unwinds out of `map`/`collect`). -/
def mapRows (g : CellGrid) : List Nat → Except (List Char) (List Record)
  | [] => Except.ok []
  | row :: rows =>
    match read_record g row with
    | Except.error e => Except.error e
    | Except.ok r =>
      match mapRows g rows with
      | Except.error e => Except.error e
      | Except.ok rs => Except.ok (r :: rs)

/-- `collect_records` (src/data-formatter/src/main.rs, lines 55–61):
`(START_ROW..=END_ROW).map(read_record).collect()`. -/
def collect_records (g : CellGrid) : Except (List Char) (List Record) :=
  mapRows g (rowList (END_ROW + 1 - START_ROW) START_ROW)

/-- `.`/`.+`/`.*` in the Rust regex crate match any character except
newline. -/
def dotOk (l : List Char) : Bool :=
  l.all (fun c => c ≠ '\n')

/-- Tail `((?P<minute>.+)分|)時点）$` of the date pattern in
`extract_datetime` (src/data-scraper/src/main.rs): leftmost-first
alternation, so the minute branch is preferred; within it the remainder
after the greedy `.+` capture is forced to be the four literals
`分時点）`.  Returns the minute capture (`some` capture or `none` for the
empty branch) when the whole list matches. -/
def matchTail (l : List Char) : Option (Option (List Char)) :=
  if 5 ≤ l.length ∧ l.drop (l.length - 4) = ['分', '時', '点', '）'] ∧
      dotOk (l.take (l.length - 4)) then
    some (some (l.take (l.length - 4)))
  else if l = ['時', '点', '）'] then some none
  else none

/-- One step `(?P<g>.+)lit REST` of the date pattern: a nonempty greedy
capture, the literal `lit`, then the rest of the pattern via `next`.
Greedy backtracking is realised by trying split positions longest
capture first. -/
def matchSeg {β : Type} (lit : Char) (next : List Char → Option β)
    (l : List Char) : Option (List Char × β) :=
  (List.range l.length).reverse.findSome? fun i =>
    if 1 ≤ i ∧ l.get? i = some lit ∧ dotOk (l.take i) then
      (next (l.drop (i + 1))).map fun b => (l.take i, b)
    else none

/-- `(?P<hour>.+)時((?P<minute>.+)分|)時点）$`. -/
def matchHour : List Char → Option (List Char × Option (List Char)) :=
  matchSeg '時' matchTail

/-- `(?P<day>.+)日` followed by the hour part. -/
def matchDay : List Char → Option (List Char × (List Char × Option (List Char))) :=
  matchSeg '日' matchHour

/-- `(?P<month>.+)月` followed by the day part. -/
def matchMonth :
    List Char → Option (List Char × (List Char × (List Char × Option (List Char)))) :=
  matchSeg '月' matchDay

/-- `(?P<year>.+)年` followed by the month part. -/
def matchYear :
    List Char →
      Option (List Char × (List Char × (List Char × (List Char × Option (List Char))))) :=
  matchSeg '年' matchMonth

/-- The full anchored pattern
`^.*（(?P<year>.+)年(?P<month>.+)月(?P<day>.+)日(?P<hour>.+)時((?P<minute>.+)分|)時点）$`
of `extract_datetime`: a possibly empty greedy prefix, the literal `（`,
then the capture chain.  Returns the five captures. -/
def matchTitle (l : List Char) :
    Option (List Char × (List Char × (List Char × (List Char × Option (List Char))))) :=
  (List.range l.length).reverse.findSome? fun i =>
    if l.get? i = some '（' ∧ dotOk (l.take i) then matchYear (l.drop (i + 1))
    else none

/-- A `chrono` `DateTime<Tz>` in the `chrono_tz::Asia::Tokyo` zone at
the precision this repository uses; `utcOffsetSeconds` is the offset
east of UTC resolved from the tz database for this local time. -/
structure TokyoDateTime where
  year : Nat
  month : Nat
  day : Nat
  hour : Nat
  minute : Nat
  second : Nat
  utcOffsetSeconds : Int
deriving DecidableEq, Repr

/-- Proleptic Gregorian leap-year rule (chrono `NaiveDate`). -/
def isLeapYear (y : Nat) : Bool :=
  y % 4 = 0 && (y % 100 ≠ 0 || y % 400 = 0)

/-- Days in a month (chrono `NaiveDate`). -/
def daysInMonth (y m : Nat) : Nat :=
  if m = 2 then (if isLeapYear y then 29 else 28)
  else if m = 4 ∨ m = 6 ∨ m = 9 ∨ m = 11 then 30
  else 31

/-- Resolution of a local datetime against a time zone, as in chrono's
`LocalResult`: a unique offset, an ambiguous wall time (clocks were set
back across it), or a nonexistent wall time (clocks jumped over it).
`with_ymd_and_hms(...).unwrap()` panics on the latter two. -/
inductive LocalResultKind where
  | single (offsetSeconds : Int)
  | ambiguous
  | gap
deriving DecidableEq, Repr

/-- Lexicographic key of a local datetime, strictly monotone in the
tuple for in-range fields (month ≤ 12, day ≤ 31, hour ≤ 23,
minute/second ≤ 59). -/
def localKey (y m d hh mi s : Nat) : Nat :=
  ((((y * 13 + m) * 32 + d) * 24 + hh) * 60 + mi) * 60 + s

/-- The IANA tz-database timeline for Asia/Tokyo as compiled into
chrono-tz, expressed over local wall time: LMT +9:18:59 (33539 s) until
1888-01-01 (wall times 00:00:00–00:18:58 on that day occur twice, once
as LMT and once as JST); JST +9:00 (32400 s) since; JDT +10:00
(36000 s) during the 1948–1951 summers.  Each daylight-saving start
(rule `May Sat>=1 24:00`, `Apr Sat>=1 24:00` in 1949: the Sundays
1948-05-02, 1949-04-03, 1950-05-07, 1951-05-06) skips the wall hour
00:00–01:00; each end (rule `Sep Sat>=8 25:00`: the Sundays 1948-09-12,
1949-09-11, 1950-09-10, 1951-09-09) repeats it. -/
def tokyoOffset (y m d hh mi s : Nat) : LocalResultKind :=
  let k := localKey y m d hh mi s
  if k < localKey 1888 1 1 0 0 0 then .single 33539
  else if k < localKey 1888 1 1 0 18 59 then .ambiguous
  else if k < localKey 1948 5 2 0 0 0 then .single 32400
  else if k < localKey 1948 5 2 1 0 0 then .gap
  else if k < localKey 1948 9 12 0 0 0 then .single 36000
  else if k < localKey 1948 9 12 1 0 0 then .ambiguous
  else if k < localKey 1949 4 3 0 0 0 then .single 32400
  else if k < localKey 1949 4 3 1 0 0 then .gap
  else if k < localKey 1949 9 11 0 0 0 then .single 36000
  else if k < localKey 1949 9 11 1 0 0 then .ambiguous
  else if k < localKey 1950 5 7 0 0 0 then .single 32400
  else if k < localKey 1950 5 7 1 0 0 then .gap
  else if k < localKey 1950 9 10 0 0 0 then .single 36000
  else if k < localKey 1950 9 10 1 0 0 then .ambiguous
  else if k < localKey 1951 5 6 0 0 0 then .single 32400
  else if k < localKey 1951 5 6 1 0 0 then .gap
  else if k < localKey 1951 9 9 0 0 0 then .single 36000
  else if k < localKey 1951 9 9 1 0 0 then .ambiguous
  else .single 32400

/-- `Tokyo.with_ymd_and_hms(...).unwrap()`: `some` exactly on a valid
calendar date and time of day (chrono caps `NaiveDate` years at 262143;
negative years cannot arise here, all inputs come from digit strings)
whose local wall time resolves to a unique tz-database offset; an
invalid date, a nonexistent wall time and an ambiguous wall time all
make the `unwrap` panic (`none`). -/
def with_ymd_and_hms_tokyo (year month day hour minute second : Nat) :
    Option TokyoDateTime :=
  if 1 ≤ month ∧ month ≤ 12 ∧ 1 ≤ day ∧ day ≤ daysInMonth year month ∧
      hour ≤ 23 ∧ minute ≤ 59 ∧ second ≤ 59 ∧ year ≤ 262143 then
    match tokyoOffset year month day hour minute second with
    | LocalResultKind.single off =>
      some ⟨year, month, day, hour, minute, second, off⟩
    | _ => none
  else none

/-- `.parse().unwrap()` on a digit string for an integer type of maximal
value `bound`; `none` models the panic on a parse error (for `i32` the
negative branch of parsing is unreachable: inputs are outputs of
`to_half_digits`). -/
def parse_unwrap (bound : Nat) (l : List Char) : Option Nat :=
  match parse_uint bound l with
  | Except.ok v => some v
  | Except.error _ => none

/-- `extract_datetime` (src/data-scraper/src/main.rs, lines 134–161).
Outer `none` models a panic (`parse().unwrap()` overflow or
`with_ymd_and_hms(...).unwrap()` on an invalid date); `some none` models
the source's `None` (pattern mismatch, or a required capture failing
digit normalization via `?`).  A minute capture that fails
normalization falls to `unwrap_or(0)`. -/
def extract_datetime (title : List Char) : Option (Option TokyoDateTime) :=
  match matchTitle title with
  | none => some none
  | some (y, mo, d, h, miOpt) =>
    match to_half_digits y with
    | none => some none
    | some y2 =>
      match parse_unwrap 2147483647 y2 with
      | none => none
      | some year =>
        match to_half_digits mo with
        | none => some none
        | some mo2 =>
          match parse_unwrap 4294967295 mo2 with
          | none => none
          | some month =>
            match to_half_digits d with
            | none => some none
            | some d2 =>
              match parse_unwrap 4294967295 d2 with
              | none => none
              | some day =>
                match to_half_digits h with
                | none => some none
                | some h2 =>
                  match parse_unwrap 4294967295 h2 with
                  | none => none
                  | some hour =>
                    let fin : Nat → Option (Option TokyoDateTime) := fun m =>
                      match with_ymd_and_hms_tokyo year month day hour m 0 with
                      | none => none
                      | some dt => some (some dt)
                    match miOpt with
                    | none => fin 0
                    | some mi =>
                      match to_half_digits mi with
                      | none => fin 0
                      | some mi2 =>
                        match parse_unwrap 4294967295 mi2 with
                        | none => none
                        | some m => fin m

/-- A character that is a digit in either supported system: ASCII
`0`–`9` or fullwidth U+FF10–U+FF19. -/
def isDigitLike (c : Char) : Bool :=
  isAsciiDigit c || (0xFF10 ≤ c.toNat && c.toNat ≤ 0xFF19)

/-- Numeric value of a digit-like character (0 elsewhere). -/
def digitValOf (c : Char) : Nat :=
  if isAsciiDigit c = true then c.toNat - 0x30
  else if 0xFF10 ≤ c.toNat ∧ c.toNat ≤ 0xFF19 then c.toNat - 0xFF10
  else 0

/-- Fixture worksheet: rows 8–54 all carry a well-formed record row
(prefecture string, fullwidth-digit phase, `Int` counters). -/
def gFixture : CellGrid := fun r c =>
  if r < 8 ∨ 54 < r then none
  else if c = PREFECTURE_INFO then some (DataType.String "01 北海道".data)
  else if c = PHASE_INFO then some (DataType.String "１／２".data)
  else if c ≤ 8 then some (DataType.Int 7)
  else none

/-- The record every row of `gFixture` extracts to. -/
def recFixture : Record :=
  ⟨⟨"01".data, "北海道".data⟩, ⟨1, 2, PhaseMode.Normal⟩, ⟨7, 7, 7⟩, ⟨7, 7, 7⟩⟩

/-- Fixture worksheet whose inpatient-total cell at row 8 is absent from
the grid; all other cells are well formed. -/
def gMissingCell : CellGrid := fun r c =>
  if c = PREFECTURE_INFO then some (DataType.String "01 北海道".data)
  else if c = PHASE_INFO then some (DataType.String "１／２".data)
  else if r = 8 ∧ c = INPATIENT_TOTAL then none
  else some (DataType.Int 7)

/-- Fixture worksheet whose inpatient-total cell at row 8 is present but
holds text; all other cells are well formed. -/
def gTextCell : CellGrid := fun r c =>
  if c = PREFECTURE_INFO then some (DataType.String "01 北海道".data)
  else if c = PHASE_INFO then some (DataType.String "１／２".data)
  else if r = 8 ∧ c = INPATIENT_TOTAL then some (DataType.String "milk".data)
  else some (DataType.Int 7)

/-- The Roman-numeral glyphs the scan loop accepts in standalone
position (as the current character, not via lookahead): ASCII `I` and
`V`, U+2160 (Ⅰ), and the single-glyph block U+2161–U+2168 (Ⅱ–Ⅸ).
`X`, U+2169 and U+3264 are only ever consumed by lookahead after an
I-glyph. -/
def isStandaloneRomanGlyph (c : Char) : Bool :=
  c.toNat = 0x49 || c.toNat = 0x2160 || c.toNat = 0x56 ||
  (0x2161 ≤ c.toNat && c.toNat ≤ 0x2168)

lemma char_ofNat_digit_facts :
    ∀ j, j < 10 → (Char.ofNat (0x30 + j)).toNat = 0x30 + j ∧
      isAsciiDigit (Char.ofNat (0x30 + j)) = true := by decide

lemma to_half_digit_char_of_digitLike {c : Char} (h : isDigitLike c = true) :
    ∃ d, to_half_digit_char c = some d ∧ isAsciiDigit d = true ∧
      digitValOf d = digitValOf c := by
  have h2 : isAsciiDigit c = true ∨ (0xFF10 ≤ c.toNat ∧ c.toNat ≤ 0xFF19) := by
    simpa [isDigitLike, Bool.or_eq_true, Bool.and_eq_true, decide_eq_true_eq] using h
  rcases h2 with ha | hb
  · have hb : 0x30 ≤ c.toNat ∧ c.toNat ≤ 0x39 := by
      simpa [isAsciiDigit, Bool.and_eq_true, decide_eq_true_eq] using ha
    refine ⟨c, ?_, ha, rfl⟩
    unfold to_half_digit_char
    rw [if_neg (by omega), if_pos hb]
  · have hj : c.toNat - 0xFF10 < 10 := by omega
    have hk := char_ofNat_digit_facts (c.toNat - 0xFF10) hj
    refine ⟨Char.ofNat (0x30 + (c.toNat - 0xFF10)), ?_, hk.2, ?_⟩
    · unfold to_half_digit_char char_from_u32
      rw [if_pos hb, if_pos (Or.inl (by omega))]
      have : c.toNat - 0xFF10 + 0x30 = 0x30 + (c.toNat - 0xFF10) := by omega
      rw [this]
    · have hna : isAsciiDigit c = false := by
        simp only [isAsciiDigit, Bool.and_eq_false_iff, decide_eq_false_iff_not]
        omega
      unfold digitValOf
      rw [if_pos hk.2, if_neg (by simp [hna]), if_pos hb, hk.1]
      omega

lemma to_half_digit_char_of_not {c : Char} (h : isDigitLike c = false) :
    to_half_digit_char c = none := by
  have hb : ¬(0x30 ≤ c.toNat ∧ c.toNat ≤ 0x39) ∧
      ¬(0xFF10 ≤ c.toNat ∧ c.toNat ≤ 0xFF19) := by
    constructor <;>
      · intro hc
        simp only [isDigitLike, isAsciiDigit, Bool.or_eq_false_iff,
          Bool.and_eq_false_iff, decide_eq_false_iff_not] at h
        omega
  unfold to_half_digit_char
  rw [if_neg hb.2, if_neg hb.1]

lemma to_half_digit_char_ascii {c : Char} (h : isAsciiDigit c = true) :
    to_half_digit_char c = some c := by
  have hb : 0x30 ≤ c.toNat ∧ c.toNat ≤ 0x39 := by
    simpa [isAsciiDigit, Bool.and_eq_true, decide_eq_true_eq] using h
  unfold to_half_digit_char
  rw [if_neg (by omega), if_pos hb]

lemma to_half_digit_char_out {c d : Char} (h : to_half_digit_char c = some d) :
    isAsciiDigit d = true := by
  by_cases h1 : 0xFF10 ≤ c.toNat ∧ c.toNat ≤ 0xFF19
  · unfold to_half_digit_char at h
    rw [if_pos h1] at h
    unfold char_from_u32 at h
    rw [if_pos (Or.inl (show c.toNat - 0xFF10 + 0x30 < 0xd800 by omega))] at h
    have hj : c.toNat - 0xFF10 < 10 := by omega
    have hk := char_ofNat_digit_facts (c.toNat - 0xFF10) hj
    have he : c.toNat - 0xFF10 + 0x30 = 0x30 + (c.toNat - 0xFF10) := by omega
    rw [he] at h
    rw [Option.some.inj h] at hk
    exact hk.2
  · by_cases h2 : 0x30 ≤ c.toNat ∧ c.toNat ≤ 0x39
    · unfold to_half_digit_char at h
      rw [if_neg h1, if_pos h2] at h
      cases h
      simpa [isAsciiDigit, Bool.and_eq_true, decide_eq_true_eq] using h2
    · unfold to_half_digit_char at h
      rw [if_neg h1, if_neg h2] at h
      cases h

lemma to_half_digits_ascii_id :
    ∀ l : List Char, (∀ c ∈ l, isAsciiDigit c = true) → to_half_digits l = some l := by
  intro l
  induction l with
  | nil => intro _; rfl
  | cons c cs ih =>
    intro h
    have hc := to_half_digit_char_ascii (h c (by simp))
    have hcs := ih (fun d hd => h d (by simp [hd]))
    simp only [to_half_digits, hc, hcs]

lemma to_half_digits_out_ascii :
    ∀ l r : List Char, to_half_digits l = some r → ∀ c ∈ r, isAsciiDigit c = true := by
  intro l
  induction l with
  | nil =>
    intro r hr
    cases hr
    intro c hc
    cases hc
  | cons c cs ih =>
    intro r hr
    unfold to_half_digits at hr
    split at hr
    · rename_i d ds hd hds
      cases hr
      intro e he
      rcases List.mem_cons.mp he with h1 | h2
      · cases h1; exact to_half_digit_char_out hd
      · exact ih ds hds e h2
    · cases hr


lemma to_half_digits_all :
    ∀ l : List Char, (∀ c ∈ l, isDigitLike c = true) →
      ∃ r, to_half_digits l = some r ∧ r.length = l.length ∧
        ∀ i a b, r.get? i = some a → l.get? i = some b →
          isAsciiDigit a = true ∧ digitValOf a = digitValOf b := by
  intro l
  induction l with
  | nil =>
    intro _
    refine ⟨[], rfl, rfl, ?_⟩
    intro i a b ha _
    simp at ha
  | cons c cs ih =>
    intro h
    obtain ⟨d, hd, had, hdv⟩ := to_half_digit_char_of_digitLike (h c (by simp))
    obtain ⟨r, hr, hlen, hidx⟩ := ih (fun e he => h e (by simp [he]))
    refine ⟨d :: r, ?_, by simp [hlen], ?_⟩
    · simp only [to_half_digits, hd, hr]
    · intro i a b ha hb
      match i with
      | 0 =>
        simp only [List.get?] at ha hb
        cases ha
        cases hb
        exact ⟨had, hdv⟩
      | Nat.succ n =>
        simp only [List.get?] at ha hb
        exact hidx n a b ha hb

lemma to_half_digits_none :
    ∀ l : List Char, (∃ c ∈ l, isDigitLike c = false) → to_half_digits l = none := by
  intro l
  induction l with
  | nil =>
    intro h
    obtain ⟨c, hc, _⟩ := h
    cases hc
  | cons c cs ih =>
    intro h
    obtain ⟨e, he, hbad⟩ := h
    rcases List.mem_cons.mp he with h1 | h2
    · cases h1
      cases htl : to_half_digits cs <;>
        simp only [to_half_digits, to_half_digit_char_of_not hbad, htl]
    · cases hhd : to_half_digit_char c <;>
        simp only [to_half_digits, hhd, ih ⟨e, h2, hbad⟩]

/-- Claim C4: on a string of ASCII and/or fullwidth digits (mixed systems
allowed) the Digit Normalizer returns `some` of a same-length ASCII-digit
string preserving positionwise numeric values; on a string containing any
other character it returns `none`. -/
theorem C4_digit_normalizer (l : List Char) :
    ((∀ c ∈ l, isDigitLike c = true) →
      ∃ r, to_half_digits l = some r ∧ r.length = l.length ∧
        ∀ i a b, r.get? i = some a → l.get? i = some b →
          isAsciiDigit a = true ∧ digitValOf a = digitValOf b)
    ∧ ((∃ c ∈ l, isDigitLike c = false) → to_half_digits l = none) :=
  ⟨to_half_digits_all l, to_half_digits_none l⟩

/-- Witness for C4 at the mixed-system input `"１2"` and at `"a"`. -/
theorem C4_digit_normalizer_witness :
    (∃ r, to_half_digits ['１', '2'] = some r ∧
      r.length = (['１', '2'] : List Char).length ∧
      ∀ i a b, r.get? i = some a → (['１', '2'] : List Char).get? i = some b →
        isAsciiDigit a = true ∧ digitValOf a = digitValOf b) ∧
    to_half_digits ['a'] = none :=
  ⟨(C4_digit_normalizer ['１', '2']).1 (by decide),
   (C4_digit_normalizer ['a']).2 ⟨'a', by decide, by decide⟩⟩

/-- Claim C9: the Digit Normalizer returns an all-ASCII-digit string
unchanged, hence is idempotent on its own outputs. -/
theorem C9_idempotent (l : List Char) :
    ((∀ c ∈ l, isAsciiDigit c = true) → to_half_digits l = some l) ∧
    (∀ r, to_half_digits l = some r → to_half_digits r = some r) :=
  ⟨to_half_digits_ascii_id l,
   fun r hr => to_half_digits_ascii_id r (to_half_digits_out_ascii l r hr)⟩

/-- Witness for C9: `"0"` is returned unchanged, and the output of
normalizing `"１２"` re-normalizes to itself. -/
theorem C9_idempotent_witness :
    to_half_digits ['0'] = some ['0'] ∧ to_half_digits ['1', '2'] = some ['1', '2'] :=
  ⟨(C9_idempotent ['0']).1 (by decide),
   (C9_idempotent ['１', '２']).2 ['1', '2'] (by decide)⟩

lemma splitTwo_append (sep : Char) (a b : List Char) (h : sep ∉ a) :
    splitTwo sep (a ++ sep :: b) =
      (a, some (b.takeWhile (fun d => d ≠ sep))) := by
  induction a with
  | nil => simp [splitTwo]
  | cons x xs ih =>
    have hx : ¬(x = sep) := fun he => h (by simp [he])
    have hxs : sep ∉ xs := fun hm => h (by simp [hm])
    simp [List.cons_append, splitTwo, hx, ih hxs]

/-- Claim C10: the Digit Normalizer accepts the empty string (`some ""`),
so a phase cell whose part before the full-width solidus trims to empty
takes the Normal-mode branch of the Phase Parser — the outcome is that
branch's digit-parse failure (`ParseIntError`, kind `empty`), which only
the Normal branch can produce, never a Roman-decode error. -/
theorem C10_empty_normalizes (cRaw m : List Char) (hsep : fullwidthSolidus ∉ cRaw)
    (htrim : trimChars cRaw = []) :
    to_half_digits [] = some [] ∧
    parse_phase (cRaw ++ fullwidthSolidus :: m) =
      some (Except.error (MyError.ParseIntError ParseIntErrorKind.empty)) := by
  refine ⟨rfl, ?_⟩
  simp [parse_phase, splitTwo_append _ _ _ hsep, htrim, to_half_digits, parse_uint]

/-- Witness for C10 at the cell `" ／２"` (first part trims to empty). -/
theorem C10_empty_normalizes_witness :
    to_half_digits [] = some [] ∧
    parse_phase ([' '] ++ fullwidthSolidus :: "２".data) =
      some (Except.error (MyError.ParseIntError ParseIntErrorKind.empty)) :=
  C10_empty_normalizes [' '] "２".data (by decide) (by decide)

/-- Claim C1 (code bug): decoding U+2160 (Ⅰ) followed by U+2164 (Ⅴ)
yields 6, not 4 — the lookahead after an I-glyph compares the next
character against U+3264 (CIRCLED HANGUL MIEUM), not U+2164, so the pair
is not consumed together: Ⅰ contributes 1 and Ⅴ contributes 5 through
the U+2161–U+2168 arm.  The ASCII pair `IV` does decode to 4, and a
character equal to U+3264 after an I-glyph is consumed for 4, exhibiting
the transposed code point. -/
theorem C1_roman_five_glyph_eval :
    parse_roman_numerals ['Ⅰ', 'Ⅴ'] = Except.ok 6 ∧
    parse_roman_numerals ['I', 'V'] = Except.ok 4 ∧
    parse_roman_numerals ['Ⅰ', '㉤'] = Except.ok 4 := by decide

/-- Counterexample for C3: a numeric cell absent from the grid and a
numeric cell holding text produce the very same failure — `get_number`
returns `none` for both and `read_record` aborts with the identical
row-indexed message — so the two are not distinguishable by the
caller. -/
theorem C3_cex :
    get_number gMissingCell 8 INPATIENT_TOTAL = get_number gTextCell 8 INPATIENT_TOTAL ∧
    get_number gMissingCell 8 INPATIENT_TOTAL = none ∧
    read_record gMissingCell 8 = read_record gTextCell 8 := by decide

/-- Claim C3 as amended: a missing numeric cell and a wrong-typed numeric
cell both make `get_number` return the same `none`; `read_record`
surfaces both as one combined failure whose message does carry the row
index, but nothing distinguishes the two cases. -/
theorem C3_missing_vs_wrong_type :
    (∀ (g : CellGrid) (row col : Nat), g row col = none →
      get_number g row col = none) ∧
    (∀ (g : CellGrid) (row col : Nat) (d : DataType), g row col = some d →
      (∀ i, d ≠ DataType.Int i) → (∀ q, d ≠ DataType.Float q) →
      get_number g row col = none) ∧
    read_record gMissingCell 8 =
      Except.error "Out of range or non-integer value of inpatient in 8 th row.".data ∧
    read_record gTextCell 8 =
      Except.error "Out of range or non-integer value of inpatient in 8 th row.".data := by
  refine ⟨?_, ?_, by decide, by decide⟩
  · intro g row col h
    simp [get_number, get_value, h]
  · intro g row col d hd hi hq
    cases d with
    | Int i => exact absurd rfl (hi i)
    | Float q => exact absurd rfl (hq q)
    | String s => simp [get_number, get_value, hd]
    | Bool b => simp [get_number, get_value, hd]
    | DateTime f => simp [get_number, get_value, hd]
    | Error => simp [get_number, get_value, hd]
    | Empty => simp [get_number, get_value, hd]

/-- Witness for C3 (amended) at an absent cell and at a blank cell. -/
theorem C3_missing_vs_wrong_type_witness :
    get_number (fun _ _ => none) 0 0 = none ∧
    get_number (fun _ _ => some DataType.Empty) 0 0 = none :=
  ⟨C3_missing_vs_wrong_type.1 (fun _ _ => none) 0 0 rfl,
   C3_missing_vs_wrong_type.2.1 (fun _ _ => some DataType.Empty) 0 0 DataType.Empty rfl
     (fun _ h => DataType.noConfusion h) (fun _ h => DataType.noConfusion h)⟩

/-- Counterexample for C2: the Phase Parser does not always return a
value.  On `"２／a"` the first part normalizes as a digit string but the
second part holds a non-digit, and the `unwrap` in the digit branch
panics (modelled `none`); on `"２"` (no separator) the `unwrap` on the
second split item panics. -/
theorem C2_cex :
    parse_phase "２／a".data = none ∧ parse_phase "２".data = none := by decide

/-- Claim C2 as amended: outside the two panic situations — no separator
in the cell, or a first part that normalizes as digits while the second
part fails normalization — the Phase Parser does return a value, and it
propagates the first underlying failure: an overflowing current value
yields that digit-parse failure before the second part is even
normalized, and in the Roman branch the first part's decode failure is
reported, naming its offending character. -/
theorem C2_failure_propagation :
    (∀ (s mRaw : List Char), (splitTwo fullwidthSolidus s).2 = some mRaw →
      ¬((to_half_digits (trimChars (splitTwo fullwidthSolidus s).1)).isSome = true ∧
        to_half_digits (trimChars mRaw) = none) →
      (parse_phase s).isSome = true) ∧
    parse_phase "２５６／２".data =
      some (Except.error (MyError.ParseIntError ParseIntErrorKind.posOverflow)) ∧
    parse_phase "２５６／ｘ".data =
      some (Except.error (MyError.ParseIntError ParseIntErrorKind.posOverflow)) ∧
    parse_phase "ａ／ｂ".data = some (Except.error (MyError.ParseRomanError 'ａ')) := by
  refine ⟨?_, by decide, by decide, by decide⟩
  intro s mRaw hm hnc
  unfold parse_phase
  simp only [hm]
  cases h1 : to_half_digits (trimChars (splitTwo fullwidthSolidus s).1) with
  | some c2 =>
    simp only [h1]
    cases h2 : parse_uint 255 c2 with
    | error e => simp [h2]
    | ok cur =>
      simp only [h2]
      cases h3 : to_half_digits (trimChars mRaw) with
      | none => exact absurd ⟨by rw [h1]; rfl, h3⟩ hnc
      | some m2 =>
        simp only [h3]
        cases h4 : parse_uint 255 m2 with
        | error e => simp [h4]
        | ok mx => simp [h4]
  | none =>
    simp only [h1]
    cases h2 : parse_roman_numerals (trimChars (splitTwo fullwidthSolidus s).1) with
    | error e => simp [h2]
    | ok cur =>
      simp only [h2]
      cases h3 : parse_roman_numerals (trimChars mRaw) with
      | error e => simp [h3]
      | ok mx => simp [h3]

/-- Witness for C2 (amended) at the Roman-side cell `"Ⅰ／a"`. -/
theorem C2_failure_propagation_witness :
    (parse_phase "Ⅰ／a".data).isSome = true :=
  C2_failure_propagation.1 "Ⅰ／a".data "a".data (by decide) (by decide)

/-- Claim C6: `"２／２"` parses to Normal mode with current 2 and maximum
2; `"Ⅰ／Ⅱ"` parses to Emergency mode with current 1 and maximum 2; and
in every successfully parsed phase, the mode is Normal exactly when the
trimmed part before the full-width solidus normalizes as a digit string
— the second part plays no role in the mode decision. -/
theorem C6_phase_mode :
    parse_phase "２／２".data = some (Except.ok ⟨2, 2, PhaseMode.Normal⟩) ∧
    parse_phase "Ⅰ／Ⅱ".data = some (Except.ok ⟨1, 2, PhaseMode.Emergency⟩) ∧
    ∀ (s : List Char) (p : Phase), parse_phase s = some (Except.ok p) →
      (p.mode = PhaseMode.Normal ↔
        (to_half_digits (trimChars (splitTwo fullwidthSolidus s).1)).isSome = true) := by
  refine ⟨by decide, by decide, ?_⟩
  intro s p hp
  unfold parse_phase at hp
  cases hm : (splitTwo fullwidthSolidus s).2 with
  | none =>
    simp only [hm] at hp
    simp at hp
  | some mRaw =>
    simp only [hm] at hp
    cases h1 : to_half_digits (trimChars (splitTwo fullwidthSolidus s).1) with
    | some c2 =>
      simp only [h1] at hp
      cases h2 : parse_uint 255 c2 with
      | error e => simp only [h2] at hp; simp at hp
      | ok cur =>
        simp only [h2] at hp
        cases h3 : to_half_digits (trimChars mRaw) with
        | none => simp only [h3] at hp; simp at hp
        | some m2 =>
          simp only [h3] at hp
          cases h4 : parse_uint 255 m2 with
          | error e => simp only [h4] at hp; simp at hp
          | ok mx =>
            simp only [h4, Option.some.injEq, Except.ok.injEq] at hp
            subst hp
            simp [h1]
    | none =>
      simp only [h1] at hp
      cases h2 : parse_roman_numerals (trimChars (splitTwo fullwidthSolidus s).1) with
      | error e => simp only [h2] at hp; simp at hp
      | ok cur =>
        simp only [h2] at hp
        cases h3 : parse_roman_numerals (trimChars mRaw) with
        | error e => simp only [h3] at hp; simp at hp
        | ok mx =>
          simp only [h3, Option.some.injEq, Except.ok.injEq] at hp
          subst hp
          simp [h1]

/-- Witness for C6's universal part at the fixture `"２／２"`. -/
theorem C6_phase_mode_witness :
    (⟨2, 2, PhaseMode.Normal⟩ : Phase).mode = PhaseMode.Normal ↔
      (to_half_digits (trimChars (splitTwo fullwidthSolidus "２／２".data).1)).isSome = true :=
  C6_phase_mode.2.2 "２／２".data ⟨2, 2, PhaseMode.Normal⟩ (by decide)

lemma char_eq_of_toNat_eq {c d : Char} (h : c.toNat = d.toNat) : c = d := by
  apply Char.eq_of_val_eq
  unfold Char.toNat at h
  exact UInt32.ext (by simpa [UInt32.toNat] using h)

lemma standalone_false_of_conds {a : Char} (h1 : ¬(a = 'I' ∨ a.toNat = 0x2160))
    (h2 : ¬a = 'V') (h3 : ¬(0x2161 ≤ a.toNat ∧ a.toNat ≤ 0x2168)) :
    isStandaloneRomanGlyph a = false := by
  have hi : ¬a.toNat = 0x49 := fun he => h1 (Or.inl (char_eq_of_toNat_eq he))
  have hu : ¬a.toNat = 0x2160 := fun he => h1 (Or.inr he)
  have hv : ¬a.toNat = 0x56 := fun he => h2 (char_eq_of_toNat_eq he)
  simp only [isStandaloneRomanGlyph, Bool.or_eq_false_iff, Bool.and_eq_false_iff,
    decide_eq_false_iff_not]
  refine ⟨⟨⟨hi, hu⟩, hv⟩, ?_⟩
  omega

lemma standalone_cases {a : Char} (h : isStandaloneRomanGlyph a = true) :
    a = 'I' ∨ a.toNat = 0x2160 ∨ a = 'V' ∨ (0x2161 ≤ a.toNat ∧ a.toNat ≤ 0x2168) := by
  simp only [isStandaloneRomanGlyph, Bool.or_eq_true, Bool.and_eq_true,
    decide_eq_true_eq] at h
  rcases h with ((hi | hu) | hv) | hr
  · exact Or.inl (char_eq_of_toNat_eq hi)
  · exact Or.inr (Or.inl hu)
  · exact Or.inr (Or.inr (Or.inl (char_eq_of_toNat_eq hv)))
  · exact Or.inr (Or.inr (Or.inr hr))

lemma roman_aux_error_mem :
    ∀ (k : Nat) (l : List Char) (n : Nat) (c : Char), l.length ≤ k →
      parse_roman_numerals_aux l n = Except.error (MyError.ParseRomanError c) →
      c ∈ l ∧ isStandaloneRomanGlyph c = false := by
  intro k
  induction k with
  | zero =>
    intro l n c hl h
    match l with
    | [] => simp [parse_roman_numerals_aux] at h
    | a :: cs => simp at hl
  | succ k ih =>
    intro l n c hl h
    match l with
    | [] => simp [parse_roman_numerals_aux] at h
    | a :: cs =>
      unfold parse_roman_numerals_aux at h
      by_cases h1 : a = 'I' ∨ a.toNat = 0x2160
      · rw [if_pos h1] at h
        match cs with
        | [] => simp [parse_roman_numerals_aux] at h
        | d :: cs2 =>
          dsimp only at h
          by_cases h2 : d = 'V' ∨ d.toNat = 0x3264
          · rw [if_pos h2] at h
            have hr := ih cs2 _ c (by simp at hl; omega) h
            exact ⟨by simp [hr.1], hr.2⟩
          · rw [if_neg h2] at h
            by_cases h3 : d = 'X' ∨ d.toNat = 0x2169
            · rw [if_pos h3] at h
              have hr := ih cs2 _ c (by simp at hl; omega) h
              exact ⟨by simp [hr.1], hr.2⟩
            · rw [if_neg h3] at h
              have hr := ih (d :: cs2) _ c (by simp at hl ⊢; omega) h
              exact ⟨by simpa using Or.inr (List.mem_cons.mp (by simpa using hr.1)), hr.2⟩
      · rw [if_neg h1] at h
        by_cases h2 : a = 'V'
        · rw [if_pos h2] at h
          have hr := ih cs _ c (by simp at hl; omega) h
          exact ⟨by simp [hr.1], hr.2⟩
        · rw [if_neg h2] at h
          by_cases h3 : 0x2161 ≤ a.toNat ∧ a.toNat ≤ 0x2168
          · rw [if_pos h3] at h
            have hr := ih cs _ c (by simp at hl; omega) h
            exact ⟨by simp [hr.1], hr.2⟩
          · rw [if_neg h3] at h
            simp only [Except.error.injEq, MyError.ParseRomanError.injEq] at h
            subst h
            exact ⟨by simp, standalone_false_of_conds h1 h2 h3⟩

lemma roman_aux_ok_of_standalone :
    ∀ (k : Nat) (l : List Char) (n : Nat), l.length ≤ k →
      (∀ c ∈ l, isStandaloneRomanGlyph c = true) →
      ∃ m, parse_roman_numerals_aux l n = Except.ok m := by
  intro k
  induction k with
  | zero =>
    intro l n hl _
    match l with
    | [] => exact ⟨n, rfl⟩
    | a :: cs => simp at hl
  | succ k ih =>
    intro l n hl hst
    match l with
    | [] => exact ⟨n, rfl⟩
    | a :: cs =>
      unfold parse_roman_numerals_aux
      by_cases h1 : a = 'I' ∨ a.toNat = 0x2160
      · rw [if_pos h1]
        match cs with
        | [] => exact ⟨_, rfl⟩
        | d :: cs2 =>
          dsimp only
          have hd := hst d (by simp)
          by_cases h2 : d = 'V' ∨ d.toNat = 0x3264
          · rw [if_pos h2]
            exact ih cs2 _ (by simp at hl; omega) (fun e he => hst e (by simp [he]))
          · rw [if_neg h2]
            have h3 : ¬(d = 'X' ∨ d.toNat = 0x2169) := by
              intro h3
              rcases standalone_cases hd with hi | hu | hv | hr
              · rcases h3 with hx | hx
                · rw [hi] at hx
                  exact absurd (congrArg Char.toNat hx) (by decide)
                · rw [hi] at hx; simp at hx
              · rcases h3 with hx | hx
                · rw [hx] at hu; simp at hu
                · omega
              · rcases h3 with hx | hx
                · rw [hv] at hx
                  exact absurd (congrArg Char.toNat hx) (by decide)
                · rw [hv] at hx; simp at hx
              · rcases h3 with hx | hx
                · have := congrArg Char.toNat hx
                  simp at this
                  omega
                · omega
            rw [if_neg h3]
            exact ih (d :: cs2) _ (by simp at hl ⊢; omega)
              (fun e he => hst e (by simp at he ⊢; tauto))
      · rw [if_neg h1]
        have ha := hst a (by simp)
        by_cases h2 : a = 'V'
        · rw [if_pos h2]
          exact ih cs _ (by simp at hl; omega) (fun e he => hst e (by simp [he]))
        · rw [if_neg h2]
          have h3 : 0x2161 ≤ a.toNat ∧ a.toNat ≤ 0x2168 := by
            rcases standalone_cases ha with hi | hu | hv | hr
            · exact absurd (Or.inl hi) h1
            · exact absurd (Or.inr hu) h1
            · exact absurd hv h2
            · exact hr
          rw [if_pos h3]
          exact ih cs _ (by simp at hl; omega) (fun e he => hst e (by simp [he]))

/-- Counterexample for C7: no fixed "supported glyph set" makes the
failure clause true.  `IX` decodes to 9, so `X` must count as supported;
but then `"XZ"`, whose only character outside the set is `Z`, fails with
an error naming `X` — the lookahead glyphs `X`/U+2169/U+3264 are only
consumable immediately after an I-glyph, and a standalone `X` is itself
the point of failure. -/
theorem C7_cex :
    parse_roman_numerals ['I', 'X'] = Except.ok 9 ∧
    parse_roman_numerals ['X', 'Z'] = Except.error (MyError.ParseRomanError 'X') := by
  decide

/-- Claim C7 as amended: the value mappings hold as claimed (`I`→1,
`IV`→4, `IX`→9, `V`→5, U+2161–U+2167 → codepoint−base+1), and the
decoder fails naming the first character at which the scan gets stuck:
an error always names a character of the input that is outside the
standalone glyph set {`I`, U+2160, `V`, U+2161–U+2168}, every input of
standalone glyphs decodes successfully, and in particular a standalone
`X` fails naming `X` itself. -/
theorem C7_roman_decoder :
    parse_roman_numerals ['I'] = Except.ok 1 ∧
    parse_roman_numerals ['I', 'V'] = Except.ok 4 ∧
    parse_roman_numerals ['I', 'X'] = Except.ok 9 ∧
    parse_roman_numerals ['V'] = Except.ok 5 ∧
    (∀ j, j < 7 → parse_roman_numerals [Char.ofNat (0x2161 + j)] = Except.ok (j + 2)) ∧
    (∀ (l : List Char) (c : Char),
      parse_roman_numerals l = Except.error (MyError.ParseRomanError c) →
      c ∈ l ∧ isStandaloneRomanGlyph c = false) ∧
    (∀ l : List Char, (∀ c ∈ l, isStandaloneRomanGlyph c = true) →
      ∃ m, parse_roman_numerals l = Except.ok m) ∧
    parse_roman_numerals ['X'] = Except.error (MyError.ParseRomanError 'X') := by
  refine ⟨by decide, by decide, by decide, by decide, by decide, ?_, ?_, by decide⟩
  · intro l c h
    exact roman_aux_error_mem l.length l 0 c le_rfl h
  · intro l h
    exact roman_aux_ok_of_standalone l.length l 0 le_rfl h

/-- Witness for C7 (amended) at Ⅱ, at the failing input `"Z"`, and at
the all-standalone input `"VV"`. -/
theorem C7_roman_decoder_witness :
    parse_roman_numerals [Char.ofNat 0x2161] = Except.ok 2 ∧
    ('Z' ∈ ['Z'] ∧ isStandaloneRomanGlyph 'Z' = false) ∧
    (∃ m, parse_roman_numerals ['V', 'V'] = Except.ok m) :=
  ⟨C7_roman_decoder.2.2.2.2.1 0 (by decide),
   C7_roman_decoder.2.2.2.2.2.1 ['Z'] 'Z' (by decide),
   C7_roman_decoder.2.2.2.2.2.2.1 ['V', 'V'] (by decide)⟩

lemma mapRows_ok_index :
    ∀ (g : CellGrid) (n s : Nat) (rs : List Record),
      mapRows g (rowList n s) = Except.ok rs →
      rs.length = n ∧
        ∀ i, i < n → ∃ r, rs.get? i = some r ∧ read_record g (s + i) = Except.ok r := by
  intro g n
  induction n with
  | zero =>
    intro s rs h
    simp only [rowList, mapRows, Except.ok.injEq] at h
    subst h
    exact ⟨rfl, fun i hi => absurd hi (by omega)⟩
  | succ n ih =>
    intro s rs h
    simp only [rowList, mapRows] at h
    cases h1 : read_record g s with
    | error e =>
      simp only [h1] at h
      exact Except.noConfusion h
    | ok r =>
      simp only [h1] at h
      cases h2 : mapRows g (rowList n (s + 1)) with
      | error e =>
        simp only [h2] at h
        exact Except.noConfusion h
      | ok rs2 =>
        simp only [h2, Except.ok.injEq] at h
        subst h
        obtain ⟨hlen, hidx⟩ := ih (s + 1) rs2 h2
        refine ⟨by simp [hlen], ?_⟩
        intro i hi
        match i with
        | 0 => exact ⟨r, rfl, by simpa using h1⟩
        | Nat.succ j =>
          obtain ⟨r2, hr2, hread⟩ := hidx j (by omega)
          refine ⟨r2, by simpa using hr2, ?_⟩
          rw [show s + (j + 1) = s + 1 + j by omega]
          exact hread

lemma mapRows_total :
    ∀ (g : CellGrid) (n s : Nat),
      (∀ i, i < n → ∃ r, read_record g (s + i) = Except.ok r) →
      ∃ rs, mapRows g (rowList n s) = Except.ok rs := by
  intro g n
  induction n with
  | zero => exact fun s _ => ⟨[], rfl⟩
  | succ n ih =>
    intro s h
    obtain ⟨r, hr⟩ := h 0 (by omega)
    have hr0 : read_record g s = Except.ok r := by simpa using hr
    obtain ⟨rs, hrs⟩ := ih (s + 1) (fun i hi => by
      have := h (i + 1) (by omega)
      rwa [show s + (i + 1) = s + 1 + i by omega] at this)
    exact ⟨r :: rs, by simp only [rowList, mapRows, hr0, hrs]⟩

lemma floatAsU32_trunc {q : Rat} (h0 : 0 < q) (hlt : q < 4294967296) :
    ((floatAsU32 q : Nat) : Rat) ≤ q ∧ q < ((floatAsU32 q : Nat) : Rat) + 1 := by
  have hfl : ((q.num.toNat / q.den : Nat) : Int) = ⌊q⌋ := by
    rw [Rat.floor_def]
    have hnn : (0 : Int) ≤ q.num := le_of_lt (Rat.num_pos.mpr h0)
    rw [Int.ofNat_tdiv, Int.toNat_of_nonneg hnn,
      Int.tdiv_eq_ediv hnn (by positivity)]
  have hle : ((⌊q⌋ : Int) : Rat) ≤ q := Int.floor_le q
  have hlt1 : q < ((⌊q⌋ : Int) : Rat) + 1 := Int.lt_floor_add_one q
  have hcast : ((q.num.toNat / q.den : Nat) : Rat) = ((⌊q⌋ : Int) : Rat) := by
    rw [← hfl]
    norm_cast
  have hbound : q.num.toNat / q.den ≤ 4294967295 := by
    by_contra hc
    push_neg at hc
    have h1 : (4294967296 : Int) ≤ ⌊q⌋ := by
      rw [← hfl]
      exact_mod_cast hc
    have h2 : ((4294967296 : Int) : Rat) ≤ ((⌊q⌋ : Int) : Rat) := by exact_mod_cast h1
    have h3 : ((4294967296 : Int) : Rat) = (4294967296 : Rat) := by norm_num
    linarith
  unfold floatAsU32
  rw [if_neg (not_le.mpr h0), min_eq_left hbound, hcast]
  exact ⟨hle, hlt1⟩

lemma read_record_gFixture (row : Nat) (hlo : 8 ≤ row) (hhi : row ≤ 54) :
    read_record gFixture row = Except.ok recFixture := by
  have hb : ¬(row < 8 ∨ 54 < row) := by omega
  have hcell : ∀ c, gFixture row c =
      (if c = 0 then some (DataType.String "01 北海道".data)
       else if c = 5 then some (DataType.String "１／２".data)
       else if c ≤ 8 then some (DataType.Int 7) else none) := by
    intro c
    simp only [gFixture, PREFECTURE_INFO, PHASE_INFO, if_neg hb]
  unfold read_record
  simp only [get_value, get_number, hcell]
  rfl

/-- Claim C8: when every row in 8–54 reads successfully the extractor
returns a list; a returned list has exactly one record per row of 8–54,
in increasing row order; each record's numeric fields come from columns
2/3/4 and 6/7/8 via `get_number`, its phase from column 5 via the Phase
Parser and its prefecture from column 0; a positive `Float` cell below
2^32 is coerced by truncation (the result `n` satisfies `n ≤ q < n + 1`,
so no rounding up ever happens), an in-range `Int` cell is taken as is,
and every other cell type fails. -/
theorem C8_record_extractor :
    (∀ g : CellGrid, (∀ row, START_ROW ≤ row → row ≤ END_ROW →
        ∃ r, read_record g row = Except.ok r) →
      ∃ rs, collect_records g = Except.ok rs) ∧
    (∀ (g : CellGrid) (rs : List Record), collect_records g = Except.ok rs →
      rs.length = 47 ∧
        ∀ i, i < 47 → ∃ r, rs.get? i = some r ∧
          read_record g (START_ROW + i) = Except.ok r) ∧
    (∀ (g : CellGrid) (row : Nat) (r : Record), read_record g row = Except.ok r →
      get_number g row INPATIENT_TOTAL = some r.inpatient_count.total ∧
      get_number g row INPATIENT_DEDICATED = some r.inpatient_count.dedicated ∧
      get_number g row INPATIENT_EXTRA = some r.inpatient_count.extra ∧
      get_number g row AVAILABLE_OR_ASSIGNED = some r.dedicated_bed_count.available_or_assigned ∧
      get_number g row GUARANTEED = some r.dedicated_bed_count.guaranteed ∧
      get_number g row EXTRA_GUARANTEED = some r.dedicated_bed_count.extra_guaranteed ∧
      (∃ pv, get_value g (row, PHASE_INFO) = some pv ∧
        parse_phase (dataTypeToString pv) = some (Except.ok r.phase)) ∧
      (∃ v code name rest, get_value g (row, PREFECTURE_INFO) = some v ∧
        (dataTypeToString v).splitOn ' ' = code :: name :: rest ∧
        r.prefecture = ⟨trimChars code, trimChars name⟩)) ∧
    (∀ (g : CellGrid) (row col : Nat) (q : Rat), g row col = some (DataType.Float q) →
      0 < q → q < 4294967296 →
      ∃ n, get_number g row col = some n ∧ (n : Rat) ≤ q ∧ q < (n : Rat) + 1) ∧
    (∀ (g : CellGrid) (row col : Nat) (i : Int), g row col = some (DataType.Int i) →
      0 ≤ i → i < 4294967296 → get_number g row col = some i.toNat) ∧
    (∀ (g : CellGrid) (row col : Nat) (d : DataType), g row col = some d →
      (∀ i, d ≠ DataType.Int i) → (∀ q, d ≠ DataType.Float q) →
      get_number g row col = none) := by
  refine ⟨?_, ?_, ?_, ?_, ?_, ?_⟩
  · intro g h
    refine mapRows_total g (END_ROW + 1 - START_ROW) START_ROW ?_
    intro i hi
    refine h (START_ROW + i) (by omega) ?_
    have he : END_ROW + 1 - START_ROW = 47 := rfl
    have hs : START_ROW = 8 := rfl
    have hd : END_ROW = 54 := rfl
    omega
  · intro g rs h
    exact mapRows_ok_index g 47 START_ROW rs h
  · intro g row r hr
    unfold read_record at hr
    cases h1 : get_value g (row, PREFECTURE_INFO) with
    | none => simp only [h1] at hr; exact Except.noConfusion hr
    | some v =>
      simp only [h1] at hr
      cases h2 : (dataTypeToString v).splitOn ' ' with
      | nil => simp only [h2] at hr; exact Except.noConfusion hr
      | cons code rest =>
        cases rest with
        | nil => simp only [h2] at hr; exact Except.noConfusion hr
        | cons name rest2 =>
          simp only [h2] at hr
          cases h3 : get_value g (row, PHASE_INFO) with
          | none => simp only [h3] at hr; exact Except.noConfusion hr
          | some pv =>
            simp only [h3] at hr
            cases h4 : parse_phase (dataTypeToString pv) with
            | none => simp only [h4] at hr; exact Except.noConfusion hr
            | some px =>
              simp only [h4] at hr
              cases px with
              | error e => exact Except.noConfusion hr
              | ok phase =>
                dsimp only at hr
                cases h5 : get_number g row INPATIENT_TOTAL with
                | none => simp only [h5] at hr; exact Except.noConfusion hr
                | some total =>
                  simp only [h5] at hr
                  cases h6 : get_number g row INPATIENT_DEDICATED with
                  | none => simp only [h6] at hr; exact Except.noConfusion hr
                  | some dedicated =>
                    simp only [h6] at hr
                    cases h7 : get_number g row INPATIENT_EXTRA with
                    | none => simp only [h7] at hr; exact Except.noConfusion hr
                    | some extra =>
                      simp only [h7] at hr
                      cases h8 : get_number g row AVAILABLE_OR_ASSIGNED with
                      | none => simp only [h8] at hr; exact Except.noConfusion hr
                      | some aoa =>
                        simp only [h8] at hr
                        cases h9 : get_number g row GUARANTEED with
                        | none => simp only [h9] at hr; exact Except.noConfusion hr
                        | some gua =>
                          simp only [h9] at hr
                          cases h10 : get_number g row EXTRA_GUARANTEED with
                          | none => simp only [h10] at hr; exact Except.noConfusion hr
                          | some eg =>
                            simp only [h10, Except.ok.injEq] at hr
                            subst hr
                            exact ⟨rfl, rfl, rfl, rfl, rfl, rfl,
                              ⟨pv, rfl, h4⟩, ⟨v, code, name, rest2, rfl, h2, rfl⟩⟩
  · intro g row col q hcell h0 hlt
    obtain ⟨hle, hlt1⟩ := floatAsU32_trunc h0 hlt
    exact ⟨floatAsU32 q, by simp [get_number, get_value, hcell], hle, hlt1⟩
  · intro g row col i hcell h0 hlt
    have : intAsU32 i = i.toNat := by
      unfold intAsU32
      rw [Int.emod_eq_of_lt h0 hlt]
    simp [get_number, get_value, hcell, this]
  · intro g row col d hd hi hq
    cases d with
    | Int i => exact absurd rfl (hi i)
    | Float q => exact absurd rfl (hq q)
    | String s => simp [get_number, get_value, hd]
    | Bool b => simp [get_number, get_value, hd]
    | DateTime f => simp [get_number, get_value, hd]
    | Error => simp [get_number, get_value, hd]
    | Empty => simp [get_number, get_value, hd]

set_option maxRecDepth 40000 in
/-- Witness for C8 on the 47-row fixture grid, a `Float` cell holding
2.9 (truncates to 2, not 3), an `Int` cell and a blank cell. -/
theorem C8_record_extractor_witness :
    (∃ rs, collect_records gFixture = Except.ok rs) ∧
    ((List.replicate 47 recFixture).length = 47 ∧
      ∀ i, i < 47 → ∃ r, (List.replicate 47 recFixture).get? i = some r ∧
        read_record gFixture (START_ROW + i) = Except.ok r) ∧
    get_number gFixture 8 INPATIENT_TOTAL = some recFixture.inpatient_count.total ∧
    (∃ n, get_number (fun _ _ => some (DataType.Float (mkRat 29 10))) 0 0 = some n ∧
      (n : Rat) ≤ mkRat 29 10 ∧ mkRat 29 10 < (n : Rat) + 1) ∧
    get_number (fun _ _ => some (DataType.Int 7)) 0 0 = some (7 : Int).toNat ∧
    get_number (fun _ _ => some DataType.Empty) 0 0 = none := by
  refine ⟨?_, ?_, ?_, ?_, ?_, ?_⟩
  · exact C8_record_extractor.1 gFixture
      (fun row h1 h2 => ⟨recFixture, read_record_gFixture row h1 h2⟩)
  · exact C8_record_extractor.2.1 gFixture (List.replicate 47 recFixture) (by decide)
  · exact (C8_record_extractor.2.2.1 gFixture 8 recFixture (by decide)).1
  · exact C8_record_extractor.2.2.2.1 (fun _ _ => some (DataType.Float (mkRat 29 10)))
      0 0 (mkRat 29 10) rfl (by decide) (by decide)
  · exact C8_record_extractor.2.2.2.2.1 (fun _ _ => some (DataType.Int 7))
      0 0 7 rfl (by decide) (by decide)
  · exact C8_record_extractor.2.2.2.2.2 (fun _ _ => some DataType.Empty)
      0 0 DataType.Empty rfl (fun _ h => DataType.noConfusion h)
      (fun _ h => DataType.noConfusion h)

lemma with_ymd_fields {y m d hh mi s : Nat} {dt : TokyoDateTime}
    (h : with_ymd_and_hms_tokyo y m d hh mi s = some dt) :
    dt.second = s ∧
      tokyoOffset dt.year dt.month dt.day dt.hour dt.minute dt.second =
        LocalResultKind.single dt.utcOffsetSeconds := by
  unfold with_ymd_and_hms_tokyo at h
  split at h
  · cases htok : tokyoOffset y m d hh mi s with
    | single off =>
      simp only [htok] at h
      cases h
      exact ⟨rfl, htok⟩
    | ambiguous =>
      simp only [htok] at h
      exact Option.noConfusion h
    | gap =>
      simp only [htok] at h
      exact Option.noConfusion h
  · exact Option.noConfusion h

/-- Counterexample for C5: on a title whose minute capture fails digit
normalization the extractor does not return `None` — the pattern
matches with minute capture `"x"`, `"x"` fails normalization, and the
result is `Some` of the timestamp with the minute defaulted to 0. -/
theorem C5_cex :
    matchTitle "（2022年11月30日0時x分時点）".data =
      some ("2022".data, "11".data, "30".data, "0".data, some "x".data) ∧
    to_half_digits "x".data = none ∧
    extract_datetime "（2022年11月30日0時x分時点）".data =
      some (some ⟨2022, 11, 30, 0, 0, 0, 32400⟩) :=
  ⟨by decide, by decide, by decide⟩

/-- Claim C5 as amended: the fixtures round-trip (with seconds 0 and the
+9:00 JST offset that the tz database assigns to 2022, and full-width
digit variants agreeing with the ASCII ones); the extractor returns
`None` when the pattern does not match, and when a required capture
(year, month, day or hour) fails digit normalization — each once the
captures before it normalized and parsed; a minute capture failing
normalization is treated as absent (minute 0) rather than producing
`None`; and every `Some` result carries second 0 and the unique
tz-database offset of its local time (+9:18:59 before 1888, +10:00 in
the 1948–1951 summers, +9:00 otherwise). -/
theorem C5_date_extractor :
    extract_datetime "（2022年11月30日0時時点）".data =
      some (some ⟨2022, 11, 30, 0, 0, 0, 32400⟩) ∧
    extract_datetime "（2022年11月30日0時5分時点）".data =
      some (some ⟨2022, 11, 30, 0, 5, 0, 32400⟩) ∧
    extract_datetime "（２０２２年１１月３０日０時時点）".data =
      some (some ⟨2022, 11, 30, 0, 0, 0, 32400⟩) ∧
    extract_datetime "（２０２２年１１月３０日０時５分時点）".data =
      some (some ⟨2022, 11, 30, 0, 5, 0, 32400⟩) ∧
    (∀ l : List Char, matchTitle l = none → extract_datetime l = some none) ∧
    (∀ (l y mo d hh : List Char) (mi : Option (List Char)),
      matchTitle l = some (y, mo, d, hh, mi) → to_half_digits y = none →
      extract_datetime l = some none) ∧
    (∀ (l y mo d hh : List Char) (mi : Option (List Char)) (y2 : List Char) (year : Nat),
      matchTitle l = some (y, mo, d, hh, mi) → to_half_digits y = some y2 →
      parse_unwrap 2147483647 y2 = some year → to_half_digits mo = none →
      extract_datetime l = some none) ∧
    (∀ (l y mo d hh : List Char) (mi : Option (List Char))
        (y2 mo2 : List Char) (year month : Nat),
      matchTitle l = some (y, mo, d, hh, mi) → to_half_digits y = some y2 →
      parse_unwrap 2147483647 y2 = some year → to_half_digits mo = some mo2 →
      parse_unwrap 4294967295 mo2 = some month → to_half_digits d = none →
      extract_datetime l = some none) ∧
    (∀ (l y mo d hh : List Char) (mi : Option (List Char))
        (y2 mo2 d2 : List Char) (year month day : Nat),
      matchTitle l = some (y, mo, d, hh, mi) → to_half_digits y = some y2 →
      parse_unwrap 2147483647 y2 = some year → to_half_digits mo = some mo2 →
      parse_unwrap 4294967295 mo2 = some month → to_half_digits d = some d2 →
      parse_unwrap 4294967295 d2 = some day → to_half_digits hh = none →
      extract_datetime l = some none) ∧
    (∀ (l : List Char) (dt : TokyoDateTime), extract_datetime l = some (some dt) →
      dt.second = 0 ∧
        tokyoOffset dt.year dt.month dt.day dt.hour dt.minute dt.second =
          LocalResultKind.single dt.utcOffsetSeconds) := by
  refine ⟨by decide, by decide, by decide, by decide, ?_, ?_, ?_, ?_, ?_, ?_⟩
  · intro l h
    simp [extract_datetime, h]
  · intro l y mo d hh mi hm hy
    simp [extract_datetime, hm, hy]
  · intro l y mo d hh mi y2 year hm hy hyp hmo
    simp [extract_datetime, hm, hy, hyp, hmo]
  · intro l y mo d hh mi y2 mo2 year month hm hy hyp hmo hmop hd
    simp [extract_datetime, hm, hy, hyp, hmo, hmop, hd]
  · intro l y mo d hh mi y2 mo2 d2 year month day hm hy hyp hmo hmop hd hdp hhh
    simp [extract_datetime, hm, hy, hyp, hmo, hmop, hd, hdp, hhh]
  · intro l dt h
    unfold extract_datetime at h
    cases h1 : matchTitle l with
    | none => simp only [h1] at h; simp at h
    | some caps =>
      obtain ⟨y, mo, d, hh, mi⟩ := caps
      simp only [h1] at h
      cases h2 : to_half_digits y with
      | none => simp only [h2] at h; simp at h
      | some y2 =>
        simp only [h2] at h
        cases h3 : parse_unwrap 2147483647 y2 with
        | none => simp only [h3] at h; simp at h
        | some year =>
          simp only [h3] at h
          cases h4 : to_half_digits mo with
          | none => simp only [h4] at h; simp at h
          | some mo2 =>
            simp only [h4] at h
            cases h5 : parse_unwrap 4294967295 mo2 with
            | none => simp only [h5] at h; simp at h
            | some month =>
              simp only [h5] at h
              cases h6 : to_half_digits d with
              | none => simp only [h6] at h; simp at h
              | some d2 =>
                simp only [h6] at h
                cases h7 : parse_unwrap 4294967295 d2 with
                | none => simp only [h7] at h; simp at h
                | some day =>
                  simp only [h7] at h
                  cases h8 : to_half_digits hh with
                  | none => simp only [h8] at h; simp at h
                  | some h2d =>
                    simp only [h8] at h
                    cases h9 : parse_unwrap 4294967295 h2d with
                    | none => simp only [h9] at h; simp at h
                    | some hour =>
                      simp only [h9] at h
                      cases mi with
                      | none =>
                        dsimp only at h
                        cases h10 : with_ymd_and_hms_tokyo year month day hour 0 0 with
                        | none => simp only [h10] at h; simp at h
                        | some dt2 =>
                          simp only [h10, Option.some.injEq] at h
                          subst h
                          exact with_ymd_fields h10
                      | some mi1 =>
                        dsimp only at h
                        cases h10 : to_half_digits mi1 with
                        | none =>
                          simp only [h10] at h
                          cases h11 : with_ymd_and_hms_tokyo year month day hour 0 0 with
                          | none => simp only [h11] at h; simp at h
                          | some dt2 =>
                            simp only [h11, Option.some.injEq] at h
                            subst h
                            exact with_ymd_fields h11
                        | some mi2 =>
                          simp only [h10] at h
                          cases h11 : parse_unwrap 4294967295 mi2 with
                          | none => simp only [h11] at h; simp at h
                          | some m =>
                            simp only [h11] at h
                            cases h12 : with_ymd_and_hms_tokyo year month day hour m 0 with
                            | none => simp only [h12] at h; simp at h
                            | some dt2 =>
                              simp only [h12, Option.some.injEq] at h
                              subst h
                              exact with_ymd_fields h12

/-- Witness for C5 (amended): a non-matching title, one failing required
capture per position, and the second/offset fields of a fixture result. -/
theorem C5_date_extractor_witness :
    extract_datetime "x".data = some none ∧
    extract_datetime "（y年1月1日0時時点）".data = some none ∧
    extract_datetime "（1年y月1日0時時点）".data = some none ∧
    extract_datetime "（1年1月y日0時時点）".data = some none ∧
    extract_datetime "（1年1月1日y時時点）".data = some none ∧
    ((⟨2022, 11, 30, 0, 5, 0, 32400⟩ : TokyoDateTime).second = 0 ∧
      tokyoOffset 2022 11 30 0 5 0 =
        LocalResultKind.single
          (⟨2022, 11, 30, 0, 5, 0, 32400⟩ : TokyoDateTime).utcOffsetSeconds) := by
  refine ⟨?_, ?_, ?_, ?_, ?_, ?_⟩
  · exact C5_date_extractor.2.2.2.2.1 "x".data (by decide)
  · exact C5_date_extractor.2.2.2.2.2.1 "（y年1月1日0時時点）".data
      "y".data "1".data "1".data "0".data none (by decide) (by decide)
  · exact C5_date_extractor.2.2.2.2.2.2.1 "（1年y月1日0時時点）".data
      "1".data "y".data "1".data "0".data none "1".data 1
      (by decide) (by decide) (by decide) (by decide)
  · exact C5_date_extractor.2.2.2.2.2.2.2.1 "（1年1月y日0時時点）".data
      "1".data "1".data "y".data "0".data none "1".data "1".data 1 1
      (by decide) (by decide) (by decide) (by decide) (by decide) (by decide)
  · exact C5_date_extractor.2.2.2.2.2.2.2.2.1 "（1年1月1日y時時点）".data
      "1".data "1".data "1".data "y".data none "1".data "1".data "1".data 1 1 1
      (by decide) (by decide) (by decide) (by decide) (by decide) (by decide)
      (by decide) (by decide)
  · exact C5_date_extractor.2.2.2.2.2.2.2.2.2 "（2022年11月30日0時5分時点）".data
      ⟨2022, 11, 30, 0, 5, 0, 32400⟩ (by decide)
